import Mathlib

/-!
Shallow embedding of the RIFT 2026 self-healing CI core
(`backend/models.py`, `backend/agents/analyze_agent.py`,
`backend/agents/heal_agent.py`, `backend/orchestrator.py`)
together with theorems settling the specification claims.

Modelling conventions:
* File contents are lists of lines without their trailing newline
  (Python `splitlines`).  Appending `"\n"` on write is therefore implicit;
  a candidate line that itself contains `"\n"` denotes several physical
  lines stored in one slot.
* `py_compile` verification is an abstract boolean on file contents
  (`parses : List String → Bool` in the heal agent,
  `pyCompile : List String → Option (Int × String)` in the analyze agent,
  returning `none` on success and the extracted line / cleaned message on
  failure).
* Regex-driven extraction helpers that a claim depends on are embedded as
  concrete parsers; those a claim does not depend on (difflib close
  matches, repository-wide `rglob` searches) are abstract parameters.
* Machine integers do not overflow in the modelled code paths; line
  numbers are `Int` (they may carry the `0` sentinel or negatives).
-/

set_option maxHeartbeats 1000000

namespace RIFT

/-- Characters stripped by Python `str.strip` / `str.rstrip` / `str.lstrip`. -/
def pyIsSpace (c : Char) : Bool :=
  c = ' ' || c = '\t' || c = '\n' || c = '\r' || c = '\x0b' || c = '\x0c'

/-- Python `str.rstrip()` (no arguments): drop trailing whitespace. -/
def pyRstrip (s : String) : String :=
  String.mk ((s.toList.reverse.dropWhile pyIsSpace).reverse)

/-- Python `str.lstrip()` (no arguments): drop leading whitespace. -/
def pyLstrip (s : String) : String :=
  String.mk (s.toList.dropWhile pyIsSpace)

/-- Python `str.strip()` (no arguments). -/
def pyStrip (s : String) : String := pyLstrip (pyRstrip s)

/-- Python `str.upper()` (ASCII fragment, sufficient for the modelled data). -/
def pyUpper (s : String) : String := String.mk (s.toList.map Char.toUpper)

/-- Python `str.lower()` (ASCII fragment, sufficient for the modelled data). -/
def pyLower (s : String) : String := String.mk (s.toList.map Char.toLower)

/-- Python regex `\w`: word character (ASCII fragment). -/
def isWordChar (c : Char) : Bool := c.isAlphanum || c = '_'

/-- A single or double quote character (regex class `['\"]`). -/
def isQuote (c : Char) : Bool := c = '\'' || c = '"'

/-- Consume the literal `pat` from the head of `cs`; `none` on mismatch. -/
def dropLit : List Char → List Char → Option (List Char)
  | [], cs => some cs
  | _ :: _, [] => none
  | p :: ps, c :: cs => if c = p then dropLit ps cs else none

/-- Does `pat` occur as a contiguous sublist of the argument?  Models
Python `pat in s` for strings. -/
def hasSubList (pat : List Char) : List Char → Bool
  | [] => pat.isEmpty
  | c :: rest => pat.isPrefixOf (c :: rest) || hasSubList pat rest

/-- Python substring test `pat in s`. -/
def containsSub (s pat : String) : Bool := hasSubList pat.toList s.toList

/-- Python `str.endswith(suf)`. -/
def strEndsWith (s suf : String) : Bool :=
  suf.toList.reverse.isPrefixOf s.toList.reverse

/-- `Path.suffix == ".py"` test used by `HealAgent._fix_error`. -/
def pyFile (f : String) : Bool := strEndsWith f ".py"

/-- Python `module_name.replace(".", "/")` (single-character pattern). -/
def dotsToSlashes (s : String) : String :=
  String.mk (s.toList.map (fun c => if c = '.' then '/' else c))

/-- Python `path.replace("\\", "/")` (single-character pattern). -/
def backslashToSlash (s : String) : String :=
  String.mk (s.toList.map (fun c => if c = '\\' then '/' else c))

/-- `module_path.split('.')[-1]`: the component after the last dot. -/
def lastDotComponent (m : String) : String :=
  String.mk ((m.toList.reverse.takeWhile (fun c => c ≠ '.')).reverse)

/-- Number of occurrences of `c` in `s` (Python `s.count(c)`). -/
def countChar (s : String) (c : Char) : Nat := s.toList.count c

/-- Remove the last occurrence of `c` from `s`, if any: Python
`idx = s.rfind(c); s[:idx] + s[idx+1:]` guarded by `idx >= 0`. -/
def removeLastOcc (s : String) (c : Char) : String :=
  String.mk ((s.toList.reverse.erase c).reverse)

/-- Iterate `removeLastOcc` `n` times (the `for _ in range(n)` loop in
`HealAgent._fix_unmatched_parens`). -/
def removeLastN (s : String) (c : Char) : Nat → String
  | 0 => s
  | k + 1 => removeLastN (removeLastOcc s c) c k

/-- Append `n` copies of the closer `c` (Python `s + c * n`). -/
def pushClosers (s : String) (c : Char) (n : Nat) : String :=
  s ++ String.mk (List.replicate n c)

/-! ## models.py -/

/-- `models.BugType` (a `str` enum; the six category strings). -/
inductive BugType
  | LINTING
  | SYNTAX
  | LOGIC
  | TYPE_ERROR
  | IMPORT
  | INDENTATION
deriving DecidableEq, Repr

/-- `models.FixStatus`. -/
inductive FixStatus
  | PENDING
  | APPLIED
  | VERIFIED
  | FAILED
deriving DecidableEq, Repr

/-- `models.RunStatus`. -/
inductive RunStatus
  | PASSED
  | FAILED
  | RUNNING
  | ERROR
deriving DecidableEq, Repr

/-- `models.ErrorInfo` after validation: `bug_type` is stored as a plain
string.  The `code_snippet` field is omitted (no claim concerns it). -/
structure ErrorInfo where
  file : String
  line_number : Int
  bug_type : String
  message : String
deriving DecidableEq, Repr

/-- The raw field values handed to the `ErrorInfo` constructor before
`model_post_init` runs (`file` and `line_number` may be `None`). -/
structure RawErrorInfo where
  file : Option String
  line_number : Option Int
  bug_type : String
  message : String
deriving DecidableEq, Repr

/-- The valid category set of `ErrorInfo.model_post_init`. -/
def validBugTypes : List String :=
  ["LINTING", "SYNTAX", "LOGIC", "TYPE_ERROR", "IMPORT", "INDENTATION"]

/-- `ErrorInfo.model_post_init`: replace `None` file/line by sentinels and
normalize `bug_type` with `str(..).upper().strip()`, falling back to
`"SYNTAX"` when the normalized value is not a valid category. -/
def modelPostInit (r : RawErrorInfo) : ErrorInfo :=
  let bt := pyStrip (pyUpper r.bug_type)
  { file := r.file.getD "unknown"
    line_number := r.line_number.getD 0
    bug_type := if bt ∈ validBugTypes then bt else "SYNTAX"
    message := r.message }

/-- `models.Fix`. -/
structure Fix where
  file : String
  bug_type : String
  line_number : Int
  original_code : String
  fixed_code : String
  commit_message : String
  status : FixStatus
deriving DecidableEq, Repr

/-- `models.TestOutput` (the text channels are irrelevant to the claims
and omitted). -/
structure TestOutput where
  exit_code : Int
  passed : Nat
  failed : Nat
  total : Nat
deriving DecidableEq, Repr

/-- `models.Iteration` (text channels and timestamp omitted). -/
structure Iteration where
  number : Nat
  passed : Nat
  failed : Nat
  total : Nat
  errors_found : Nat
  fixes_applied : Nat
  status : RunStatus
deriving DecidableEq, Repr

/-! ## analyze_agent.py -/

/-- The classification table of `AnalyzeAgent._classify_runtime_error`
(a Python dict with distinct keys; lookup order is immaterial). -/
def runtimeErrorTable : List (String × BugType) :=
  [("NameError", BugType.IMPORT),
   ("ImportError", BugType.IMPORT),
   ("ModuleNotFoundError", BugType.IMPORT),
   ("TypeError", BugType.TYPE_ERROR),
   ("ValueError", BugType.LOGIC),
   ("AssertionError", BugType.LOGIC),
   ("AttributeError", BugType.LOGIC),
   ("KeyError", BugType.LOGIC),
   ("IndexError", BugType.LOGIC),
   ("ZeroDivisionError", BugType.LOGIC),
   ("SyntaxError", BugType.SYNTAX),
   ("IndentationError", BugType.INDENTATION)]

/-- `AnalyzeAgent._classify_runtime_error(err_type, msg)`:
`mapping.get(err_type, BugType.LOGIC)`.  The `msg` argument is accepted
but never consulted, exactly as in the source. -/
def classifyRuntimeError (errType : String) (msg : String) : BugType :=
  let _ := msg
  (runtimeErrorTable.lookup errType).getD BugType.LOGIC

/-- The `(file, line_number)` dedup key used by `AnalyzeAgent.run`. -/
def key (e : ErrorInfo) : String × Int := (e.file, e.line_number)

/-- One guarded-append loop of `AnalyzeAgent.run`:
`for err in new: if key not in seen: seen.add(key); errors.append(err)`. -/
def dedupAppend : List ErrorInfo → List (String × Int) → List ErrorInfo →
    List (String × Int) × List ErrorInfo
  | [], seen, acc => (seen, acc)
  | e :: es, seen, acc =>
    if key e ∈ seen then dedupAppend es seen acc
    else dedupAppend es (key e :: seen) (acc ++ [e])

/-- Strategy-3 loop of `AnalyzeAgent.run`: for each already-collected
error, ask the root-cause tracer (which also receives the live `seen`
set) and append the substitute defect when its key is fresh. -/
def traceLoop (trace : ErrorInfo → List (String × Int) → Option ErrorInfo) :
    List ErrorInfo → List (String × Int) → List ErrorInfo →
    List (String × Int) × List ErrorInfo
  | [], seen, traced => (seen, traced)
  | e :: es, seen, traced =>
    match trace e seen with
    | none => traceLoop trace es seen traced
    | some r =>
      if key r ∈ seen then traceLoop trace es seen traced
      else traceLoop trace es (key r :: seen) (traced ++ [r])

/-- Strategies 1 and 2 of `AnalyzeAgent.run`: dedup-append the syntax-scan
results, then the test-output results, starting from an empty `seen`. -/
def analyzeScan2 (syntaxErrs runtimeErrs : List ErrorInfo) :
    List (String × Int) × List ErrorInfo :=
  dedupAppend runtimeErrs (dedupAppend syntaxErrs [] []).1
    (dedupAppend syntaxErrs [] []).2

/-- Strategy 3 of `AnalyzeAgent.run`, applied to the snapshot of the
error list taken after strategies 1 and 2. -/
def analyzeTraced (trace : ErrorInfo → List (String × Int) → Option ErrorInfo)
    (syntaxErrs runtimeErrs : List ErrorInfo) :
    List (String × Int) × List ErrorInfo :=
  traceLoop trace (analyzeScan2 syntaxErrs runtimeErrs).2
    (analyzeScan2 syntaxErrs runtimeErrs).1 []

/-- `AnalyzeAgent.run`: the sub-scan results are taken as parameters (the
scans themselves walk the file system); the returned list is the traced
root-cause defects first, then the deduplicated scan/test/lint defects. -/
def analyzeRun (trace : ErrorInfo → List (String × Int) → Option ErrorInfo)
    (syntaxErrs runtimeErrs lintErrs : List ErrorInfo) : List ErrorInfo :=
  (analyzeTraced trace syntaxErrs runtimeErrs).2 ++
    (dedupAppend lintErrs (analyzeTraced trace syntaxErrs runtimeErrs).1
      (analyzeScan2 syntaxErrs runtimeErrs).2).2

/-- A file system: repository-relative path to file content (lines). -/
abbrev FS := String → Option (List String)

/-- Point update of a file system. -/
def FS.set (fs : FS) (f : String) (c : List String) : FS :=
  fun p => if p = f then some c else fs p

/-- The shape the `import_pat` regex of `_trace_to_root_cause` can match:
`import X as name`, `from X import ... name ...`, or `import name`. -/
inductive ImportForm
  | importAs (m : String)
  | fromImport (m : String)
  | importDirect
deriving DecidableEq, Repr

/-- The regex-driven extraction steps of `_trace_to_root_cause`, abstract
(the claims settled against the tracer do not depend on their values):
`extractUndefined` models ``re.search(r"name\s+['\"]?(\w+)['\"]?\s+is not
defined", msg)``, `findImport` models the `import_pat` search over the
defect file's source, `extractModule` models ``re.search(r"(?:No module
named|cannot import name)\s+['\"]?(\S+)['\"]?", msg)`` plus quote
stripping. -/
structure TraceOracles where
  extractUndefined : String → Option String
  findImport : List String → String → Option ImportForm
  extractModule : String → Option String

/-- `AnalyzeAgent._resolve_module`: try `a/b/c.py`, then
`a/b/c/__init__.py`. -/
def resolveModule (fs : FS) (m : String) : Option String :=
  let parts := dotsToSlashes m
  if (fs (parts ++ ".py")).isSome then some (parts ++ ".py")
  else if (fs (parts ++ "/__init__.py")).isSome then
    some (parts ++ "/__init__.py")
  else none

/-- The module name `_trace_to_root_cause` decides to trace, or `none`
when the function returns early (not a name/import error, extraction
failure, unreadable source, no matching import statement). -/
def traceTarget (O : TraceOracles) (fs : FS) (err : ErrorInfo) :
    Option String :=
  let msg := err.message
  if containsSub msg "NameError" then
    match O.extractUndefined msg with
    | none => none
    | some name =>
      match fs err.file with
      | none => none
      | some src =>
        match O.findImport src name with
        | none => none
        | some (ImportForm.importAs m) => some m
        | some (ImportForm.fromImport m) => some m
        | some ImportForm.importDirect => some name
  else if err.bug_type = "IMPORT" || containsSub msg "ImportError"
      || containsSub msg "ModuleNotFoundError" then
    O.extractModule msg
  else none

/-- `AnalyzeAgent._trace_to_root_cause`: resolve the trace target to a
file; if that file compiles cleanly return `none`, otherwise emit the
substitute defect at the compile failure's location unless its key is
already in `seen`.  `pyCompile` returns `none` on success, or the
extracted line number and cleaned message of the `PyCompileError`. -/
def traceToRootCause (O : TraceOracles)
    (pyCompile : List String → Option (Int × String)) (fs : FS)
    (err : ErrorInfo) (seen : List (String × Int)) : Option ErrorInfo :=
  match traceTarget O fs err with
  | none => none
  | some m =>
    match resolveModule fs m with
    | none => none
    | some path =>
      match pyCompile ((fs path).getD []) with
      | none => none
      | some (line, msgClean) =>
        if (path, line) ∈ seen then none
        else some
          { file := path
            line_number := line
            bug_type :=
              if containsSub (pyLower msgClean) "indent" then "INDENTATION"
              else "SYNTAX"
            message := msgClean }

/-! ## heal_agent.py — candidate protocol and strategies -/

/-- The result of one fix strategy, as dispatched by `_fix_error`: either
a plain replacement for the defect line, or the sentinel-prefixed
cross-file protocol `"__CROSSFILE__ <rel_path>|||<line>|||<content>"`
rendered as a tagged value. -/
inductive Cand
  | sameFile (content : String)
  | crossFile (target : String) (line : Int) (content : String)
deriving DecidableEq, Repr

/-- A fix strategy: `(error, lines, line_number) → candidate or none`. -/
abbrev Strategy := ErrorInfo → List String → Int → Option Cand

/-- Python list assignment `ls[idx] = v` for `idx = line - 1`, including
negative indexing; `none` models the `IndexError` taken by the
cross-file `except` handler. -/
def pySetLine (ls : List String) (line : Int) (v : String) :
    Option (List String) :=
  let n : Int := ls.length
  let idx := line - 1
  let j := if idx < 0 then idx + n else idx
  if 0 ≤ j ∧ j < n then some (ls.set j.toNat v) else none

/-- The cross-file write of `_fix_error`: read the target file, replace
the addressed line, write back.  `none` models the caught exception
(missing file or bad index) after which the strategy loop continues. -/
def crossWrite (fs : FS) (target : String) (line : Int) (code : String) :
    Option FS :=
  match fs target with
  | none => none
  | some ls => (pySetLine ls line code).map (FS.set fs target)

/-- The `Fix` object built on the cross-file path of `_fix_error`. -/
def mkCrossFix (bt stratName target : String) (line : Int) (code : String) :
    Fix :=
  { file := target
    bug_type := bt
    line_number := line
    original_code := "(cross-file fix)"
    fixed_code := pyStrip code
    commit_message := "Cross-file fix " ++ bt ++ " with " ++ stratName
    status := FixStatus.APPLIED }

/-- The `Fix` object built on the verified same-file path of
`_fix_error`. -/
def mkSameFix (e : ErrorInfo) (origLine fixedLine : String) : Fix :=
  { file := e.file
    bug_type := e.bug_type
    line_number := e.line_number
    original_code := pyRstrip origLine
    fixed_code := pyRstrip fixedLine
    commit_message := ""
    status := FixStatus.PENDING }

/-- The per-strategy loop of `HealAgent._fix_error`.  Strategies always
receive the original lines (the Python `lines` list is never rebound).
On exhaustion the file is rewritten with its original content. -/
def fixErrorGo (parses : List String → Bool) (e : ErrorInfo)
    (origLines : List String) (origLine : String) :
    FS → List (String × Strategy) → FS × Option Fix
  | fs, [] => (FS.set fs e.file origLines, none)
  | fs, (stratName, strat) :: rest =>
    match strat e origLines e.line_number with
    | none => fixErrorGo parses e origLines origLine fs rest
    | some (Cand.crossFile target line code) =>
      match crossWrite fs target line code with
      | some fs' => (fs', some (mkCrossFix e.bug_type stratName target line code))
      | none => fixErrorGo parses e origLines origLine fs rest
    | some (Cand.sameFile s) =>
      if pyRstrip s = pyRstrip origLine then
        fixErrorGo parses e origLines origLine fs rest
      else if pyFile e.file then
        if parses (origLines.set (e.line_number - 1).toNat s) then
          (FS.set fs e.file (origLines.set (e.line_number - 1).toNat s),
           some (mkSameFix e origLine s))
        else fixErrorGo parses e origLines origLine fs rest
      else
        (FS.set fs e.file (origLines.set (e.line_number - 1).toNat s),
         some (mkSameFix e origLine s))

/-- `HealAgent._fix_error`: missing file or out-of-range line number
abort before any strategy runs; otherwise run the strategy loop. -/
def fixError (parses : List String → Bool) (fs : FS) (e : ErrorInfo)
    (strategies : List (String × Strategy)) : FS × Option Fix :=
  match fs e.file with
  | none => (fs, none)
  | some lines =>
    if e.line_number < 1 ∨ (lines.length : Int) < e.line_number then
      (fs, none)
    else
      fixErrorGo parses e lines
        (lines.getD (e.line_number - 1).toNat "") fs strategies

/-- `HealAgent._fix_unmatched_parens` applied to the defect line: balance
`()` in both directions, then `[]` and `{}` by appending only. -/
def fixUnmatchedParensLine (line : String) : Option String :=
  if countChar line ')' < countChar line '(' then
    some (pushClosers (pyRstrip line) ')'
      (countChar line '(' - countChar line ')'))
  else if countChar line '(' < countChar line ')' then
    some (removeLastN (pyRstrip line) ')'
      (countChar line ')' - countChar line '('))
  else if countChar line ']' < countChar line '[' then
    some (pushClosers (pyRstrip line) ']'
      (countChar line '[' - countChar line ']'))
  else if countChar line '}' < countChar line '{' then
    some (pushClosers (pyRstrip line) '}'
      (countChar line '{' - countChar line '}'))
  else none

/-- `_fix_unmatched_parens` as a `Strategy`. -/
def fixUnmatchedParens : Strategy := fun _ lines ln =>
  (fixUnmatchedParensLine (lines.getD (ln - 1).toNat "")).map Cand.sameFile

/-- Matcher for `^\s*(import\s+[\w.]+\s+as\s+)(\w+)\s*$` (the `alias_match`
regex of `_fix_name_not_defined`); returns (group 1, group 2).  The
leading whitespace lies outside group 1, exactly as in the source. -/
def parseAliasImport (cs : List Char) : Option (String × String) :=
  let r1 := (cs.span pyIsSpace).2
  match dropLit "import".toList r1 with
  | none => none
  | some r2 =>
    let sp1 := (r2.span pyIsSpace).1
    let r3 := (r2.span pyIsSpace).2
    if sp1.isEmpty then none else
    let mo := (r3.span (fun c => isWordChar c || c = '.')).1
    let r4 := (r3.span (fun c => isWordChar c || c = '.')).2
    if mo.isEmpty then none else
    let sp2 := (r4.span pyIsSpace).1
    let r5 := (r4.span pyIsSpace).2
    if sp2.isEmpty then none else
    match dropLit "as".toList r5 with
    | none => none
    | some r6 =>
      let sp3 := (r6.span pyIsSpace).1
      let r7 := (r6.span pyIsSpace).2
      if sp3.isEmpty then none else
      let al := (r7.span isWordChar).1
      let r8 := (r7.span isWordChar).2
      if al.isEmpty then none else
      if ((r8.span pyIsSpace).2).isEmpty then
        some (String.mk ("import".toList ++ sp1 ++ mo ++ sp2 ++
          "as".toList ++ sp3), String.mk al)
      else none

/-- Matcher for `^(\s*from\s+[\w.]+\s+import\s+\w+\s+as\s+)(\w+)\s*$`
(the `from_alias_match` regex); the leading whitespace is inside
group 1 here, exactly as in the source. -/
def parseFromAliasImport (cs : List Char) : Option (String × String) :=
  let ws := (cs.span pyIsSpace).1
  let r1 := (cs.span pyIsSpace).2
  match dropLit "from".toList r1 with
  | none => none
  | some r2 =>
    let sp1 := (r2.span pyIsSpace).1
    let r3 := (r2.span pyIsSpace).2
    if sp1.isEmpty then none else
    let mo := (r3.span (fun c => isWordChar c || c = '.')).1
    let r4 := (r3.span (fun c => isWordChar c || c = '.')).2
    if mo.isEmpty then none else
    let sp2 := (r4.span pyIsSpace).1
    let r5 := (r4.span pyIsSpace).2
    if sp2.isEmpty then none else
    match dropLit "import".toList r5 with
    | none => none
    | some r6 =>
      let sp3 := (r6.span pyIsSpace).1
      let r7 := (r6.span pyIsSpace).2
      if sp3.isEmpty then none else
      let nm := (r7.span isWordChar).1
      let r8 := (r7.span isWordChar).2
      if nm.isEmpty then none else
      let sp4 := (r8.span pyIsSpace).1
      let r9 := (r8.span pyIsSpace).2
      if sp4.isEmpty then none else
      match dropLit "as".toList r9 with
      | none => none
      | some r10 =>
        let sp5 := (r10.span pyIsSpace).1
        let r11 := (r10.span pyIsSpace).2
        if sp5.isEmpty then none else
        let al := (r11.span isWordChar).1
        let r12 := (r11.span isWordChar).2
        if al.isEmpty then none else
        if ((r12.span pyIsSpace).2).isEmpty then
          some (String.mk (ws ++ "from".toList ++ sp1 ++ mo ++ sp2 ++
            "import".toList ++ sp3 ++ nm ++ sp4 ++ "as".toList ++ sp5),
            String.mk al)
        else none

/-- Matcher for `^\s*import\s+([\w.]+)\s*$` (the `mod_match` regex of
case 2 of `_fix_name_not_defined`). -/
def parseModuleImport (cs : List Char) : Option String :=
  let r1 := (cs.span pyIsSpace).2
  match dropLit "import".toList r1 with
  | none => none
  | some r2 =>
    let sp1 := (r2.span pyIsSpace).1
    let r3 := (r2.span pyIsSpace).2
    if sp1.isEmpty then none else
    let mo := (r3.span (fun c => isWordChar c || c = '.')).1
    let r4 := (r3.span (fun c => isWordChar c || c = '.')).2
    if mo.isEmpty then none else
    if ((r4.span pyIsSpace).2).isEmpty then some (String.mk mo) else none

/-- Matcher for `name ['\"]?(\w+)['\"]? is not defined` anchored at the
head of `cs` (one attempt of the `re.search` in
`_fix_name_not_defined`). -/
def matchNotDefinedAt (cs : List Char) : Option String :=
  match dropLit "name ".toList cs with
  | none => none
  | some r1 =>
    let r2 := match r1 with
      | c :: rest => if isQuote c then rest else r1
      | [] => r1
    let w := (r2.span isWordChar).1
    let r3 := (r2.span isWordChar).2
    if w.isEmpty then none else
    let r4 := match r3 with
      | c :: rest => if isQuote c then rest else r3
      | [] => r3
    match dropLit " is not defined".toList r4 with
    | some _ => some (String.mk w)
    | none => none

/-- `re.search` scan for the undefined-name pattern: first matching start
position wins. -/
def searchNotDefined : List Char → Option String
  | [] => none
  | c :: rest =>
    match matchNotDefinedAt (c :: rest) with
    | some n => some n
    | none => searchNotDefined rest

/-- Case 1 of `_fix_name_not_defined`: scan for an `import ... as alias`
or `from ... import ... as alias` line whose alias closely matches the
undefined name, and rewrite that alias via the cross-file protocol.
`cm` models `difflib.get_close_matches(undefined, [alias], 1, 0.7) ≠ []`. -/
def nameFixCase1 (cm : String → String → Bool) (nameU errFile : String) :
    Nat → List String → Option Cand
  | _, [] => none
  | i, l :: ls =>
    match parseAliasImport l.toList with
    | some (g1, al) =>
      if cm nameU al then
        some (Cand.crossFile errFile ((i : Int) + 1) (g1 ++ nameU))
      else
        match parseFromAliasImport l.toList with
        | some (g1', al') =>
          if cm nameU al' then
            some (Cand.crossFile errFile ((i : Int) + 1) (g1' ++ nameU))
          else nameFixCase1 cm nameU errFile (i + 1) ls
        | none => nameFixCase1 cm nameU errFile (i + 1) ls
    | none =>
      match parseFromAliasImport l.toList with
      | some (g1', al') =>
        if cm nameU al' then
          some (Cand.crossFile errFile ((i : Int) + 1) (g1' ++ nameU))
        else nameFixCase1 cm nameU errFile (i + 1) ls
      | none => nameFixCase1 cm nameU errFile (i + 1) ls

/-- Case 2 of `_fix_name_not_defined`: a full-path `import a.b.c` whose
last dotted component equals the undefined name gets an explicit alias
appended, via the cross-file protocol targeting the defect's own file. -/
def nameFixCase2 (nameU errFile : String) : Nat → List String → Option Cand
  | _, [] => none
  | i, l :: ls =>
    match parseModuleImport l.toList with
    | some mo =>
      if lastDotComponent mo = nameU then
        some (Cand.crossFile errFile ((i : Int) + 1)
          (pyRstrip l ++ " as " ++ nameU))
      else nameFixCase2 nameU errFile (i + 1) ls
    | none => nameFixCase2 nameU errFile (i + 1) ls

/-- Case 3 of `_fix_name_not_defined`: when a repository-wide search
(`findDef`, abstracting the sorted `rglob` scan for a `def`/`class` of
that name in a non-test file) yields a defining module, prepend
`from <module> import <name>` by rewriting line 1 to the import plus the
original first line. -/
def nameFixCase3 (findDef : String → Option String)
    (nameU errFile : String) (lines : List String) : Option Cand :=
  match findDef nameU with
  | none => none
  | some modulePath =>
    some (Cand.crossFile errFile 1
      ("from " ++ modulePath ++ " import " ++ nameU ++ "\n" ++
        pyRstrip (lines.headD "")))

/-- `HealAgent._fix_name_not_defined`: extract the undefined name from the
message, then try cases 1, 2, 3 in order.  Every produced candidate uses
the cross-file protocol, targeting the defect's own file. -/
def fixNameNotDefined (cm : String → String → Bool)
    (findDef : String → Option String) (e : ErrorInfo)
    (lines : List String) : Option Cand :=
  match searchNotDefined e.message.toList with
  | none => none
  | some nameU =>
    match nameFixCase1 cm nameU (backslashToSlash e.file) 0 lines with
    | some c => some c
    | none =>
      match nameFixCase2 nameU (backslashToSlash e.file) 0 lines with
      | some c => some c
      | none => nameFixCase3 findDef nameU (backslashToSlash e.file) lines

/-- `_fix_name_not_defined` as a `Strategy` (the line-number argument is
accepted and ignored, as in the source). -/
def fixNameNotDefinedStrat (cm : String → String → Bool)
    (findDef : String → Option String) : Strategy :=
  fun e lines _ => fixNameNotDefined cm findDef e lines

/-! ## orchestrator.py -/

/-- Build one recorded `Iteration` from a test output. -/
def mkIter (n : Nat) (t : TestOutput) (errs fixesA : Nat) (st : RunStatus) :
    Iteration :=
  { number := n
    passed := t.passed
    failed := t.failed
    total := t.total
    errors_found := errs
    fixes_applied := fixesA
    status := st }

/-- The initial `Iteration` (number 0) recorded by `run_pipeline`. -/
def initIteration (t : TestOutput) : Iteration :=
  mkIter 0 t 0 0 (if t.failed = 0 then RunStatus.PASSED else RunStatus.FAILED)

/-- `for fix in all_fixes: if fix.status == APPLIED: fix.status = VERIFIED`. -/
def markVerified (fixes : List Fix) : List Fix :=
  fixes.map (fun f =>
    if f.status = FixStatus.APPLIED then { f with status := FixStatus.VERIFIED }
    else f)

/-- The healing loop of `run_pipeline` (`for i in range(1, MAX+1)`), with
the collaborators abstracted: `analyze` maps the current test output to
the defect list, `heal i errors` returns this round's fixes and commit
count, `verify i` re-runs the tests.  Returns the final test output, the
accumulated fixes, the commit count, and the recorded iterations. -/
def healLoop (analyze : TestOutput → List ErrorInfo)
    (heal : Nat → List ErrorInfo → List Fix × Nat)
    (verify : Nat → TestOutput) :
    Nat → Nat → TestOutput → List Fix → Nat → List Iteration →
    TestOutput × List Fix × Nat × List Iteration
  | 0, _, cur, fixes, commits, iters => (cur, fixes, commits, iters)
  | r + 1, i, cur, fixes, commits, iters =>
    if (analyze cur).isEmpty then
      (cur, fixes, commits, iters ++ [mkIter i cur 0 0 RunStatus.FAILED])
    else if (verify i).failed = 0 ∧ (verify i).exit_code = 0 then
      (verify i, markVerified (fixes ++ (heal i (analyze cur)).1),
       commits + (heal i (analyze cur)).2,
       iters ++ [mkIter i (verify i) (analyze cur).length
         (((heal i (analyze cur)).1.filter
           (fun f => decide (f.status = FixStatus.APPLIED))).length)
         (if (verify i).failed = 0 then RunStatus.PASSED else RunStatus.FAILED)])
    else
      healLoop analyze heal verify r (i + 1) (verify i)
        (fixes ++ (heal i (analyze cur)).1) (commits + (heal i (analyze cur)).2)
        (iters ++ [mkIter i (verify i) (analyze cur).length
          (((heal i (analyze cur)).1.filter
            (fun f => decide (f.status = FixStatus.APPLIED))).length)
          (if (verify i).failed = 0 then RunStatus.PASSED else RunStatus.FAILED)])

/-- `run_pipeline`, reduced to the control flow the claims concern: the
initial iteration is recorded; if the initial result has zero failures
and exit code zero the run ends immediately PASSED with no fixes;
otherwise the healing loop runs and the final status is decided by the
last test output's failures and exit code. -/
def runPipeline (maxIter : Nat) (initial : TestOutput)
    (analyze : TestOutput → List ErrorInfo)
    (heal : Nat → List ErrorInfo → List Fix × Nat)
    (verify : Nat → TestOutput) :
    RunStatus × List Iteration × List Fix :=
  if initial.failed = 0 ∧ initial.exit_code = 0 then
    (RunStatus.PASSED, [initIteration initial], [])
  else
    (if (healLoop analyze heal verify maxIter 1 initial [] 0
          [initIteration initial]).1.failed = 0 ∧
        (healLoop analyze heal verify maxIter 1 initial [] 0
          [initIteration initial]).1.exit_code = 0 then
      RunStatus.PASSED
    else RunStatus.FAILED,
     (healLoop analyze heal verify maxIter 1 initial [] 0
       [initIteration initial]).2.2.2,
     (healLoop analyze heal verify maxIter 1 initial [] 0
       [initIteration initial]).2.1)

/-! ## Concrete instances used by counterexamples -/

/-- A two-line Python file: a full-path import and an unbalanced call. -/
def c1fs : FS := fun p =>
  if p = "app.py" then some ["import src.validator", "x = validator.f("]
  else none

/-- The NameError defect reported against line 2 of `app.py`. -/
def c1err : ErrorInfo :=
  { file := "app.py"
    line_number := 2
    bug_type := "IMPORT"
    message := "NameError: name 'validator' is not defined" }

/-- The head of the IMPORT strategy list of `_get_strategies`. -/
def c1strats : List (String × Strategy) :=
  [("fix_name_not_defined",
    fixNameNotDefinedStrat (fun _ _ => false) (fun _ => none))]

/-- A parse oracle agreeing with `py_compile` on the contents this run
touches: a line ending in an unclosed `(` never compiles. -/
def c1parses : List String → Bool :=
  fun ls => !(ls.any (fun l => strEndsWith l "("))

/-! ## Auxiliary lemmas -/

theorem toList_mk (l : List Char) : (String.mk l).toList = l := rfl

theorem count_dropWhile_of_neg (p : Char → Bool) (c : Char)
    (hc : p c = false) (l : List Char) :
    (l.dropWhile p).count c = l.count c := by
  have hsplit : l.count c = (l.takeWhile p).count c + (l.dropWhile p).count c := by
    conv_lhs => rw [← List.takeWhile_append_dropWhile p l]
    exact List.count_append ..
  have htw : (l.takeWhile p).count c = 0 := by
    rw [List.count_eq_zero]
    intro hmem
    have hpc := List.mem_takeWhile_imp hmem
    rw [hc] at hpc
    exact Bool.noConfusion hpc
  omega

theorem countChar_pyRstrip (s : String) (c : Char)
    (hc : pyIsSpace c = false) : countChar (pyRstrip s) c = countChar s c := by
  show ((s.toList.reverse.dropWhile pyIsSpace).reverse).count c = s.toList.count c
  rw [List.count_reverse, count_dropWhile_of_neg pyIsSpace c hc,
    List.count_reverse]

theorem countChar_append (s t : String) (c : Char) :
    countChar (s ++ t) c = countChar s c + countChar t c := by
  show (s ++ t).data.count c = s.data.count c + t.data.count c
  rw [String.data_append, List.count_append]

theorem countChar_pushClosers_self (s : String) (c : Char) (n : Nat) :
    countChar (pushClosers s c n) c = countChar s c + n := by
  unfold pushClosers
  rw [countChar_append]
  congr 1
  show (List.replicate n c).count c = n
  simp

theorem countChar_pushClosers_ne (s : String) (c d : Char) (n : Nat)
    (h : d ≠ c) : countChar (pushClosers s c n) d = countChar s d := by
  unfold pushClosers
  rw [countChar_append]
  have hz : (List.replicate n c).count d = 0 := by
    rw [List.count_eq_zero]
    intro hm
    exact h (List.eq_of_mem_replicate hm)
  show countChar s d + (List.replicate n c).count d = countChar s d
  rw [hz]
  omega

theorem countChar_removeLastOcc_self (s : String) (c : Char) :
    countChar (removeLastOcc s c) c = countChar s c - 1 := by
  show ((s.toList.reverse.erase c).reverse).count c = s.toList.count c - 1
  rw [List.count_reverse, List.count_erase_self, List.count_reverse]

theorem countChar_removeLastOcc_ne (s : String) (c d : Char) (h : d ≠ c) :
    countChar (removeLastOcc s c) d = countChar s d := by
  show ((s.toList.reverse.erase c).reverse).count d = s.toList.count d
  rw [List.count_reverse, List.count_erase_of_ne h, List.count_reverse]

theorem countChar_removeLastN_self (c : Char) (n : Nat) :
    ∀ s : String, countChar (removeLastN s c n) c = countChar s c - n := by
  induction n with
  | zero => intro s; simp [removeLastN]
  | succ k ih =>
    intro s
    show countChar (removeLastN (removeLastOcc s c) c k) c = countChar s c - (k + 1)
    rw [ih, countChar_removeLastOcc_self]
    omega

theorem countChar_removeLastN_ne (c d : Char) (h : d ≠ c) (n : Nat) :
    ∀ s : String, countChar (removeLastN s c n) d = countChar s d := by
  induction n with
  | zero => intro s; simp [removeLastN]
  | succ k ih =>
    intro s
    show countChar (removeLastN (removeLastOcc s c) c k) d = countChar s d
    rw [ih, countChar_removeLastOcc_ne s c d h]

theorem dedupAppend_spec (es : List ErrorInfo) :
    ∀ (seen : List (String × Int)) (acc : List ErrorInfo),
    (∀ x ∈ acc, key x ∈ seen) → (acc.map key).Nodup →
    ((∀ x ∈ (dedupAppend es seen acc).2, key x ∈ (dedupAppend es seen acc).1) ∧
     ((dedupAppend es seen acc).2.map key).Nodup ∧
     (∀ k ∈ seen, k ∈ (dedupAppend es seen acc).1) ∧
     (∀ x ∈ (dedupAppend es seen acc).2, x ∈ acc ∨ key x ∉ seen)) := by
  induction es with
  | nil =>
    intro seen acc hsub hnd
    exact ⟨hsub, hnd, fun k hk => hk, fun x hx => Or.inl hx⟩
  | cons e es ih =>
    intro seen acc hsub hnd
    by_cases hmem : key e ∈ seen
    · simp only [dedupAppend]
      rw [if_pos hmem]
      exact ih seen acc hsub hnd
    · simp only [dedupAppend]
      rw [if_neg hmem]
      have hsub' : ∀ x ∈ acc ++ [e], key x ∈ key e :: seen := by
        intro x hx
        rcases List.mem_append.1 hx with hx | hx
        · exact List.mem_cons_of_mem _ (hsub x hx)
        · rw [List.mem_singleton] at hx
          subst hx
          exact List.mem_cons_self _ _
      have hnd' : ((acc ++ [e]).map key).Nodup := by
        rw [List.map_append]
        refine List.Nodup.append hnd (by simp) ?_
        intro a ha hb
        rw [List.map_singleton, List.mem_singleton] at hb
        subst hb
        rcases List.mem_map.1 ha with ⟨x, hx, hke⟩
        exact hmem (hke ▸ hsub x hx)
      obtain ⟨h1, h2, h3, h4⟩ := ih (key e :: seen) (acc ++ [e]) hsub' hnd'
      refine ⟨h1, h2, fun k hk => h3 k (List.mem_cons_of_mem _ hk),
        fun x hx => ?_⟩
      rcases h4 x hx with hx' | hx'
      · rcases List.mem_append.1 hx' with h5 | h5
        · exact Or.inl h5
        · rw [List.mem_singleton] at h5
          subst h5
          exact Or.inr hmem
      · exact Or.inr (fun hk => hx' (List.mem_cons_of_mem _ hk))

theorem traceLoop_spec
    (trace : ErrorInfo → List (String × Int) → Option ErrorInfo)
    (es : List ErrorInfo) :
    ∀ (seen : List (String × Int)) (acc : List ErrorInfo),
    (∀ x ∈ acc, key x ∈ seen) → (acc.map key).Nodup →
    ((∀ x ∈ (traceLoop trace es seen acc).2,
        key x ∈ (traceLoop trace es seen acc).1) ∧
     ((traceLoop trace es seen acc).2.map key).Nodup ∧
     (∀ k ∈ seen, k ∈ (traceLoop trace es seen acc).1) ∧
     (∀ x ∈ (traceLoop trace es seen acc).2, x ∈ acc ∨ key x ∉ seen)) := by
  induction es with
  | nil =>
    intro seen acc hsub hnd
    exact ⟨hsub, hnd, fun k hk => hk, fun x hx => Or.inl hx⟩
  | cons e es ih =>
    intro seen acc hsub hnd
    cases htr : trace e seen with
    | none =>
      simp only [traceLoop, htr]
      exact ih seen acc hsub hnd
    | some r =>
      by_cases hmem : key r ∈ seen
      · simp only [traceLoop, htr]
        rw [if_pos hmem]
        exact ih seen acc hsub hnd
      · simp only [traceLoop, htr]
        rw [if_neg hmem]
        have hsub' : ∀ x ∈ acc ++ [r], key x ∈ key r :: seen := by
          intro x hx
          rcases List.mem_append.1 hx with hx | hx
          · exact List.mem_cons_of_mem _ (hsub x hx)
          · rw [List.mem_singleton] at hx
            subst hx
            exact List.mem_cons_self _ _
        have hnd' : ((acc ++ [r]).map key).Nodup := by
          rw [List.map_append]
          refine List.Nodup.append hnd (by simp) ?_
          intro a ha hb
          rw [List.map_singleton, List.mem_singleton] at hb
          subst hb
          rcases List.mem_map.1 ha with ⟨x, hx, hke⟩
          exact hmem (hke ▸ hsub x hx)
        obtain ⟨h1, h2, h3, h4⟩ := ih (key r :: seen) (acc ++ [r]) hsub' hnd'
        refine ⟨h1, h2, fun k hk => h3 k (List.mem_cons_of_mem _ hk),
          fun x hx => ?_⟩
        rcases h4 x hx with hx' | hx'
        · rcases List.mem_append.1 hx' with h5 | h5
          · exact Or.inl h5
          · rw [List.mem_singleton] at h5
            subst h5
            exact Or.inr hmem
        · exact Or.inr (fun hk => hx' (List.mem_cons_of_mem _ hk))

theorem healLoop_len_le (analyze : TestOutput → List ErrorInfo)
    (heal : Nat → List ErrorInfo → List Fix × Nat)
    (verify : Nat → TestOutput) :
    ∀ (r i : Nat) (cur : TestOutput) (fixes : List Fix) (commits : Nat)
      (iters : List Iteration),
    iters.length ≤
      (healLoop analyze heal verify r i cur fixes commits iters).2.2.2.length := by
  intro r
  induction r with
  | zero =>
    intro i cur fixes commits iters
    exact Nat.le_refl _
  | succ k ih =>
    intro i cur fixes commits iters
    simp only [healLoop]
    by_cases h1 : (analyze cur).isEmpty
    · rw [if_pos h1]
      simp only [List.length_append, List.length_singleton]
      omega
    · rw [if_neg h1]
      by_cases h2 : (verify i).failed = 0 ∧ (verify i).exit_code = 0
      · rw [if_pos h2]
        simp only [List.length_append, List.length_singleton]
        omega
      · rw [if_neg h2]
        refine le_trans ?_ (ih _ _ _ _ _)
        simp only [List.length_append, List.length_singleton]
        omega

theorem healLoop_succ_len (analyze : TestOutput → List ErrorInfo)
    (heal : Nat → List ErrorInfo → List Fix × Nat)
    (verify : Nat → TestOutput) (r i : Nat) (cur : TestOutput)
    (fixes : List Fix) (commits : Nat) (iters : List Iteration) :
    iters.length + 1 ≤
      (healLoop analyze heal verify (r + 1) i cur fixes commits
        iters).2.2.2.length := by
  simp only [healLoop]
  by_cases h1 : (analyze cur).isEmpty
  · rw [if_pos h1]
    simp only [List.length_append, List.length_singleton]
    omega
  · rw [if_neg h1]
    by_cases h2 : (verify i).failed = 0 ∧ (verify i).exit_code = 0
    · rw [if_pos h2]
      simp only [List.length_append, List.length_singleton]
      omega
    · rw [if_neg h2]
      refine le_trans ?_ (healLoop_len_le analyze heal verify r _ _ _ _ _)
      simp only [List.length_append, List.length_singleton]
      omega

theorem crossWrite_apply_ne (fs : FS) (target : String) (line : Int)
    (code : String) (fs' : FS) (p : String)
    (hw : crossWrite fs target line code = some fs') (hp : p ≠ target) :
    fs' p = fs p := by
  cases hfs : fs target with
  | none =>
    simp only [crossWrite, hfs] at hw
    exact Option.noConfusion hw
  | some ls =>
    cases hset : pySetLine ls line code with
    | none =>
      simp only [crossWrite, hfs, hset, Option.map_none'] at hw
      exact Option.noConfusion hw
    | some ls2 =>
      simp only [crossWrite, hfs, hset, Option.map_some',
        Option.some.injEq] at hw
      subst hw
      simp [FS.set, hp]

theorem fixErrorGo_preserves (parses : List String → Bool) (e : ErrorInfo)
    (origLines : List String) (origLine : String) :
    ∀ (strats : List (String × Strategy)) (fs : FS),
    pyFile e.file = true →
    fs e.file = some origLines →
    (∀ ns ∈ strats, ∀ (ls : List String) (ln : Int) (t : String) (l : Int)
      (c : String), ns.2 e ls ln = some (Cand.crossFile t l c) → t ≠ e.file) →
    ((fixErrorGo parses e origLines origLine fs strats).1 e.file =
        some origLines ∨
     ∃ c, (fixErrorGo parses e origLines origLine fs strats).1 e.file =
        some c ∧ parses c = true) := by
  intro strats
  induction strats with
  | nil =>
    intro fs _ _ _
    left
    simp [fixErrorGo, FS.set]
  | cons ns rest ih =>
    intro fs hpy hfs hcross
    obtain ⟨stratName, strat⟩ := ns
    have hcross' : ∀ m ∈ rest, ∀ (ls : List String) (ln : Int) (t : String)
        (l : Int) (c : String),
        m.2 e ls ln = some (Cand.crossFile t l c) → t ≠ e.file :=
      fun m hm => hcross m (List.mem_cons_of_mem _ hm)
    cases hstrat : strat e origLines e.line_number with
    | none =>
      simp only [fixErrorGo, hstrat]
      exact ih fs hpy hfs hcross'
    | some cand =>
      cases cand with
      | crossFile t l c =>
        have ht : t ≠ e.file :=
          hcross (stratName, strat) (List.mem_cons_self _ _) origLines
            e.line_number t l c hstrat
        cases hw : crossWrite fs t l c with
        | none =>
          simp only [fixErrorGo, hstrat, hw]
          exact ih fs hpy hfs hcross'
        | some fs' =>
          simp only [fixErrorGo, hstrat, hw]
          left
          rw [crossWrite_apply_ne fs t l c fs' e.file hw (Ne.symm ht)]
          exact hfs
      | sameFile s =>
        by_cases heq : pyRstrip s = pyRstrip origLine
        · simp only [fixErrorGo, hstrat]
          rw [if_pos heq]
          exact ih fs hpy hfs hcross'
        · simp only [fixErrorGo, hstrat]
          rw [if_neg heq, if_pos hpy]
          by_cases hp : parses (origLines.set (e.line_number - 1).toNat s) = true
          · rw [if_pos hp]
            right
            exact ⟨_, by simp [FS.set], hp⟩
          · rw [if_neg hp]
            exact ih fs hpy hfs hcross'

theorem nameFixCase1_none (cm : String → String → Bool)
    (nameU errFile : String) :
    ∀ (i : Nat) (lines : List String),
    (∀ l ∈ lines, parseAliasImport l.toList = none ∧
      parseFromAliasImport l.toList = none) →
    nameFixCase1 cm nameU errFile i lines = none := by
  intro i lines
  induction lines generalizing i with
  | nil => intro _; rfl
  | cons l ls ih =>
    intro h
    have hl := h l (List.mem_cons_self _ _)
    simp only [nameFixCase1, hl.1, hl.2]
    exact ih (i + 1) (fun x hx => h x (List.mem_cons_of_mem _ hx))

theorem nameFixCase2_skip (nameU errFile : String) (i : Nat) (l : String)
    (ls : List String)
    (h : (parseModuleImport l.toList).all
      (fun m => lastDotComponent m != nameU) = true) :
    nameFixCase2 nameU errFile i (l :: ls) =
      nameFixCase2 nameU errFile (i + 1) ls := by
  cases hm : parseModuleImport l.toList with
  | none => simp only [nameFixCase2, hm]
  | some m =>
    rw [hm] at h
    simp only [Option.all, bne_iff_ne] at h
    simp only [nameFixCase2, hm]
    rw [if_neg h]

theorem nameFixCase2_hit (nameU errFile : String) (i : Nat) (l : String)
    (ls : List String) (mo : String)
    (hm : parseModuleImport l.toList = some mo)
    (hlast : lastDotComponent mo = nameU) :
    nameFixCase2 nameU errFile i (l :: ls) =
      some (Cand.crossFile errFile ((i : Int) + 1)
        (pyRstrip l ++ " as " ++ nameU)) := by
  simp only [nameFixCase2, hm]
  rw [if_pos hlast]

/-! ## Claim theorems -/

/-- C1 counterexample: with the IMPORT strategy list (headed by
`_fix_name_not_defined`) on a Python file whose line 2 is an unbalanced
call, the produced candidate travels through the `__CROSSFILE__` protocol
while targeting the defect's *own* file, so `_fix_error` writes it
without the local re-parse check: the final content of `app.py` is
neither the original nor a content that passes the check. -/
theorem c1_counterexample :
    pyFile c1err.file = true ∧
    ¬ ((fixError c1parses c1fs c1err c1strats).1 c1err.file =
          c1fs c1err.file ∨
       ∃ c, (fixError c1parses c1fs c1err c1strats).1 c1err.file = some c ∧
         c1parses c = true) := by
  refine ⟨by decide, ?_⟩
  rintro (h | ⟨c, hc, hp⟩)
  · exact absurd h (by decide)
  · have he : (fixError c1parses c1fs c1err c1strats).1 c1err.file =
        some ["import src.validator as validator", "x = validator.f("] := by
      decide
    rw [he] at hc
    cases hc
    exact absurd hp (by decide)

/-- C1 (amended): for a same-file fix attempt on a Python file, provided
no strategy emits a cross-file-protocol candidate targeting the defect's
own file, the strategy loop leaves the file either with its original
content or with a content that passes the local re-parse check.  (The
unamended claim fails because `_fix_name_not_defined` emits protocol
candidates targeting the defect's own file, which are written without
verification.) -/
theorem c1_same_file_reparse_amended (parses : List String → Bool) (fs : FS)
    (e : ErrorInfo) (strats : List (String × Strategy))
    (hpy : pyFile e.file = true)
    (hcross : ∀ ns ∈ strats, ∀ (ls : List String) (ln : Int) (t : String)
      (l : Int) (c : String),
      ns.2 e ls ln = some (Cand.crossFile t l c) → t ≠ e.file) :
    ((fixError parses fs e strats).1 e.file = fs e.file ∨
     ∃ c, (fixError parses fs e strats).1 e.file = some c ∧
       parses c = true) := by
  cases hfs : fs e.file with
  | none =>
    have hred : fixError parses fs e strats = (fs, none) := by
      unfold fixError
      rw [hfs]
    rw [hred]
    left
    exact hfs
  | some lines =>
    have hred : fixError parses fs e strats =
        if e.line_number < 1 ∨ (lines.length : Int) < e.line_number then
          (fs, none)
        else
          fixErrorGo parses e lines
            (lines.getD (e.line_number - 1).toNat "") fs strats := by
      unfold fixError
      rw [hfs]
    rw [hred]
    by_cases hr : e.line_number < 1 ∨ (lines.length : Int) < e.line_number
    · rw [if_pos hr]
      left
      exact hfs
    · rw [if_neg hr]
      exact fixErrorGo_preserves parses e lines
        (lines.getD (e.line_number - 1).toNat "") strats fs hpy hfs hcross

theorem c1_witness :
    pyFile "w.py" = true ∧
    ((fixError (fun _ => true)
        (fun p => if p = "w.py" then some ["passx"] else none)
        ⟨"w.py", 1, "SYNTAX", ""⟩
        [("missing_colon", fun _ _ _ => some (Cand.sameFile "pass"))]).1
          "w.py" =
        (fun p => if p = "w.py" then some ["passx"] else none : FS) "w.py" ∨
     ∃ c, (fixError (fun _ => true)
        (fun p => if p = "w.py" then some ["passx"] else none)
        ⟨"w.py", 1, "SYNTAX", ""⟩
        [("missing_colon", fun _ _ _ => some (Cand.sameFile "pass"))]).1
          "w.py" = some c ∧ (fun _ => true : List String → Bool) c = true) :=
  ⟨by decide,
   c1_same_file_reparse_amended _ _ _ _ (by decide)
     (by
       rintro ns hns ls ln t l c h
       simp only [List.mem_singleton] at hns
       subst hns
       simp at h)⟩

/-- C4: a strategy result on the cross-file protocol with a target
different from the defect's file is written directly and yields a Fix
with status APPLIED, with no dependence on the re-parse oracle; a plain
same-file candidate that differs from the original line and passes the
re-parse check yields a Fix with status PENDING. -/
theorem c4_crossfile_applied :
    (∀ (parses parses' : List String → Bool) (e : ErrorInfo)
       (origLines : List String) (origLine stratName : String)
       (strat : Strategy) (rest : List (String × Strategy)) (fs fs' : FS)
       (t : String) (l : Int) (c : String),
       strat e origLines e.line_number = some (Cand.crossFile t l c) →
       t ≠ e.file →
       crossWrite fs t l c = some fs' →
       fixErrorGo parses e origLines origLine fs
           ((stratName, strat) :: rest) =
         (fs', some (mkCrossFix e.bug_type stratName t l c)) ∧
       (mkCrossFix e.bug_type stratName t l c).status = FixStatus.APPLIED ∧
       fixErrorGo parses e origLines origLine fs
           ((stratName, strat) :: rest) =
         fixErrorGo parses' e origLines origLine fs
           ((stratName, strat) :: rest)) ∧
    (∀ (parses : List String → Bool) (e : ErrorInfo)
       (origLines : List String) (origLine stratName s : String)
       (strat : Strategy) (rest : List (String × Strategy)) (fs : FS),
       strat e origLines e.line_number = some (Cand.sameFile s) →
       pyRstrip s ≠ pyRstrip origLine →
       pyFile e.file = true →
       parses (origLines.set (e.line_number - 1).toNat s) = true →
       fixErrorGo parses e origLines origLine fs
           ((stratName, strat) :: rest) =
         (FS.set fs e.file (origLines.set (e.line_number - 1).toNat s),
          some (mkSameFix e origLine s)) ∧
       (mkSameFix e origLine s).status = FixStatus.PENDING) := by
  constructor
  · intro parses parses' e origLines origLine stratName strat rest fs fs' t l
      c hstrat ht hw
    refine ⟨?_, rfl, ?_⟩
    · simp only [fixErrorGo, hstrat, hw]
    · simp only [fixErrorGo, hstrat, hw]
  · intro parses e origLines origLine stratName s strat rest fs hstrat hne
      hpy hp
    refine ⟨?_, rfl⟩
    simp only [fixErrorGo, hstrat]
    rw [if_neg hne, if_pos hpy, if_pos hp]

theorem c4_witness :
    (fixErrorGo (fun _ => false) ⟨"a.py", 1, "LOGIC", "m"⟩ ["x = 1"] "x = 1"
        (fun p => if p = "b.py" then some ["y = 0"] else none)
        [("fix_wrong_operator",
          fun _ _ _ => some (Cand.crossFile "b.py" 1 "y = 1"))] =
      (FS.set (fun p => if p = "b.py" then some ["y = 0"] else none) "b.py"
        ["y = 1"],
       some (mkCrossFix "LOGIC" "fix_wrong_operator" "b.py" 1 "y = 1")) ∧
     (mkCrossFix "LOGIC" "fix_wrong_operator" "b.py" 1 "y = 1").status =
       FixStatus.APPLIED ∧
     fixErrorGo (fun _ => false) ⟨"a.py", 1, "LOGIC", "m"⟩ ["x = 1"] "x = 1"
        (fun p => if p = "b.py" then some ["y = 0"] else none)
        [("fix_wrong_operator",
          fun _ _ _ => some (Cand.crossFile "b.py" 1 "y = 1"))] =
       fixErrorGo (fun _ => true) ⟨"a.py", 1, "LOGIC", "m"⟩ ["x = 1"] "x = 1"
        (fun p => if p = "b.py" then some ["y = 0"] else none)
        [("fix_wrong_operator",
          fun _ _ _ => some (Cand.crossFile "b.py" 1 "y = 1"))]) ∧
    (fixErrorGo (fun _ => true) ⟨"c.py", 1, "SYNTAX", "m"⟩ ["if x = 1"]
        "if x = 1" (fun _ => none)
        [("eq_vs_assign", fun _ _ _ => some (Cand.sameFile "if x == 1"))] =
      (FS.set (fun _ => none) "c.py" (["if x = 1"].set 0 "if x == 1"),
       some (mkSameFix ⟨"c.py", 1, "SYNTAX", "m"⟩ "if x = 1" "if x == 1")) ∧
     (mkSameFix ⟨"c.py", 1, "SYNTAX", "m"⟩ "if x = 1" "if x == 1").status =
       FixStatus.PENDING) :=
  ⟨c4_crossfile_applied.1 _ _ _ _ _ _ _ _ _ _ "b.py" 1 "y = 1" rfl
     (by decide) rfl,
   c4_crossfile_applied.2 _ _ _ _ _ _ _ _ _ rfl (by decide) (by decide) rfl⟩

/-- C7 (Scenario B): for a defect with message
`NameError: name 'validator' is not defined` in a file whose line 3 is
`import src.validator` (a full-path import whose last dotted component
equals the undefined name), with no aliased import anywhere and no
earlier matching full-path import, `_fix_name_not_defined` rewrites that
line to `import src.validator as validator` (emitted as a protocol
candidate replacing line 3 of the defect's own file). -/
theorem c7_scenario_b (cm : String → String → Bool)
    (findDef : String → Option String) (e : ErrorInfo) (l0 l1 : String)
    (rest : List String)
    (hmsg : e.message = "NameError: name 'validator' is not defined")
    (hNoAlias : ∀ l ∈ (l0 :: l1 :: "import src.validator" :: rest),
      parseAliasImport l.toList = none ∧ parseFromAliasImport l.toList = none)
    (h0 : (parseModuleImport l0.toList).all
      (fun m => lastDotComponent m != "validator") = true)
    (h1 : (parseModuleImport l1.toList).all
      (fun m => lastDotComponent m != "validator") = true) :
    fixNameNotDefined cm findDef e
        (l0 :: l1 :: "import src.validator" :: rest) =
      some (Cand.crossFile (backslashToSlash e.file) 3
        "import src.validator as validator") := by
  have hsearch : searchNotDefined
      ("NameError: name 'validator' is not defined").toList =
      some "validator" := by decide
  have hcase1 : nameFixCase1 cm "validator" (backslashToSlash e.file) 0
      (l0 :: l1 :: "import src.validator" :: rest) = none :=
    nameFixCase1_none cm "validator" (backslashToSlash e.file) 0 _ hNoAlias
  have hcase2 : nameFixCase2 "validator" (backslashToSlash e.file) 0
      (l0 :: l1 :: "import src.validator" :: rest) =
      some (Cand.crossFile (backslashToSlash e.file) 3
        "import src.validator as validator") := by
    rw [nameFixCase2_skip "validator" (backslashToSlash e.file) 0 l0
        (l1 :: "import src.validator" :: rest) h0]
    rw [nameFixCase2_skip "validator" (backslashToSlash e.file) (0 + 1) l1
        ("import src.validator" :: rest) h1]
    rw [nameFixCase2_hit "validator" (backslashToSlash e.file) (0 + 1 + 1)
        "import src.validator" rest "src.validator" (by decide) (by decide)]
    have hint : ((0 + 1 + 1 : Nat) : Int) + 1 = (3 : Int) := by decide
    have hstr : pyRstrip "import src.validator" ++ " as " ++ "validator" =
        "import src.validator as validator" := by decide
    rw [hint, hstr]
  simp only [fixNameNotDefined, hmsg, hsearch, hcase1, hcase2]

theorem c7_witness :
    fixNameNotDefined (fun _ _ => true) (fun _ => none)
      ⟨"app.py", 4, "IMPORT", "NameError: name 'validator' is not defined"⟩
      ["x = 1", "y = 2", "import src.validator",
       "print(validator.add(2, 3))"] =
    some (Cand.crossFile (backslashToSlash "app.py") 3
      "import src.validator as validator") :=
  c7_scenario_b _ _ _ "x = 1" "y = 2" ["print(validator.add(2, 3))"] rfl
    (by decide) (by decide) (by decide)

/-- C2: the defect list returned by one `AnalyzeAgent.run` pass has no
two entries with the same `(file, line_number)` key — across the
syntax-scan, test-output, traced and unused-import sub-lists — and the
traced root-cause defects form a leading segment placed before all other
defects. -/
theorem c2_analyze_dedup
    (trace : ErrorInfo → List (String × Int) → Option ErrorInfo)
    (syntaxErrs runtimeErrs lintErrs : List ErrorInfo) :
    ((analyzeRun trace syntaxErrs runtimeErrs lintErrs).map key).Nodup ∧
    analyzeRun trace syntaxErrs runtimeErrs lintErrs =
      (analyzeTraced trace syntaxErrs runtimeErrs).2 ++
        (dedupAppend lintErrs (analyzeTraced trace syntaxErrs runtimeErrs).1
          (analyzeScan2 syntaxErrs runtimeErrs).2).2 := by
  refine ⟨?_, rfl⟩
  unfold analyzeRun analyzeTraced analyzeScan2
  set q1 := dedupAppend syntaxErrs [] [] with hq1
  set q2 := dedupAppend runtimeErrs q1.1 q1.2 with hq2
  set q3 := traceLoop trace q2.2 q2.1 [] with hq3
  set q4 := dedupAppend lintErrs q3.1 q2.2 with hq4
  have A := dedupAppend_spec syntaxErrs [] []
    (fun x hx => absurd hx (List.not_mem_nil x)) (by simp)
  rw [← hq1] at A
  obtain ⟨a1, a2, _, _⟩ := A
  have B := dedupAppend_spec runtimeErrs q1.1 q1.2 a1 a2
  rw [← hq2] at B
  obtain ⟨b1, b2, _, _⟩ := B
  have T := traceLoop_spec trace q2.2 q2.1 []
    (fun x hx => absurd hx (List.not_mem_nil x)) (by simp)
  rw [← hq3] at T
  obtain ⟨t1, t2, t3, t4⟩ := T
  have L := dedupAppend_spec lintErrs q3.1 q2.2
    (fun x hx => t3 _ (b1 x hx)) b2
  rw [← hq4] at L
  obtain ⟨_, l2, _, l4⟩ := L
  rw [List.map_append]
  refine List.Nodup.append t2 l2 ?_
  intro a ha hb
  rcases List.mem_map.1 ha with ⟨x, hx, rfl⟩
  rcases List.mem_map.1 hb with ⟨y, hy, hky⟩
  have hxs3 : key x ∈ q3.1 := t1 x hx
  have hxnot2 : key x ∉ q2.1 := by
    rcases t4 x hx with h | h
    · exact absurd h (List.not_mem_nil x)
    · exact h
  rcases l4 y hy with hy' | hy'
  · exact hxnot2 (hky ▸ b1 y hy')
  · exact hy' (hky ▸ hxs3)

/-- C3 counterexample: an initial test result with zero failures, zero
total and exit code zero DOES bypass the healing loop as PASSED (one
recorded iteration, zero fixes) — the pipeline guard checks
`exit_code == 0`, not a non-zero total, so a zero-total run is not kept
out of the immediate-PASSED path as the claim requires. -/
theorem c3_counterexample :
    runPipeline 5 ⟨0, 0, 0, 0⟩ (fun _ => []) (fun _ _ => ([], 0))
      (fun _ => ⟨0, 0, 0, 0⟩) =
    (RunStatus.PASSED, [initIteration ⟨0, 0, 0, 0⟩], []) := by
  rfl

/-- C3 (amended): the immediate-PASSED bypass is decided by
`failed == 0 ∧ exit_code == 0` (the total is not consulted): with that
condition the pipeline terminates immediately with status PASSED, exactly
one recorded iteration and zero fixes, regardless of the retry budget;
without it (and a positive budget) the loop is entered and at least a
second iteration is recorded. -/
theorem c3_immediate_pass_amended (maxIter : Nat) (initial : TestOutput)
    (analyze : TestOutput → List ErrorInfo)
    (heal : Nat → List ErrorInfo → List Fix × Nat)
    (verify : Nat → TestOutput) :
    (initial.failed = 0 → initial.exit_code = 0 →
      runPipeline maxIter initial analyze heal verify =
        (RunStatus.PASSED, [initIteration initial], [])) ∧
    (¬ (initial.failed = 0 ∧ initial.exit_code = 0) → 1 ≤ maxIter →
      2 ≤ (runPipeline maxIter initial analyze heal verify).2.1.length) := by
  constructor
  · intro h1 h2
    unfold runPipeline
    rw [if_pos ⟨h1, h2⟩]
  · intro hne hmax
    obtain ⟨r, rfl⟩ : ∃ r, maxIter = r + 1 :=
      ⟨maxIter - 1, (Nat.succ_pred_eq_of_pos hmax).symm⟩
    unfold runPipeline
    rw [if_neg hne]
    have h := healLoop_succ_len analyze heal verify r 1 initial [] 0
      [initIteration initial]
    simpa using h

theorem c3_witness :
    runPipeline 7 ⟨0, 10, 0, 10⟩ (fun _ => []) (fun _ _ => ([], 0))
        (fun _ => ⟨0, 10, 0, 10⟩) =
      (RunStatus.PASSED, [initIteration ⟨0, 10, 0, 10⟩], []) ∧
    2 ≤ (runPipeline 5 ⟨1, 8, 2, 10⟩ (fun _ => []) (fun _ _ => ([], 0))
        (fun _ => ⟨1, 8, 2, 10⟩)).2.1.length :=
  ⟨(c3_immediate_pass_amended 7 ⟨0, 10, 0, 10⟩ _ _ _).1 rfl rfl,
   (c3_immediate_pass_amended 5 ⟨1, 8, 2, 10⟩ _ _ _).2 (by decide) (by decide)⟩

/-- C5: for every defect whose trace target resolves to a file that
compiles cleanly, `_trace_to_root_cause` returns no substitution; being a
pure function of the oracles, compile check, file system and defect,
repeated calls on unchanged state return `none` every time. -/
theorem c5_trace_clean_idempotent (O : TraceOracles)
    (pyCompile : List String → Option (Int × String)) (fs : FS)
    (err : ErrorInfo) (seen : List (String × Int)) (m path : String)
    (ht : traceTarget O fs err = some m)
    (hr : resolveModule fs m = some path)
    (hc : pyCompile ((fs path).getD []) = none) :
    traceToRootCause O pyCompile fs err seen = none := by
  simp only [traceToRootCause, ht, hr, hc]

theorem c5_witness :
    traceTarget ⟨fun _ => none, fun _ _ => none, fun _ => some "src.mod"⟩
        (fun p => if p = "src/mod.py" then some ["x = 1"] else none)
        ⟨"t.py", 1, "IMPORT", "ImportError: No module named 'src.mod'"⟩ =
      some "src.mod" ∧
    traceToRootCause ⟨fun _ => none, fun _ _ => none, fun _ => some "src.mod"⟩
        (fun _ => none)
        (fun p => if p = "src/mod.py" then some ["x = 1"] else none)
        ⟨"t.py", 1, "IMPORT", "ImportError: No module named 'src.mod'"⟩ [] =
      none :=
  ⟨by decide,
   c5_trace_clean_idempotent _ _ _ _ _ "src.mod" "src/mod.py" (by decide)
     (by decide) rfl⟩

/-- C6 counterexample: on the line `x = a]` the closers of the `[]` pair
exceed the openers, yet `_fix_unmatched_parens` produces no candidate at
all — the claimed stripping of excess `]` does not happen (the strip
branch exists only for `()`). -/
theorem c6_counterexample :
    fixUnmatchedParensLine "x = a]" = none ∧
    fixUnmatchedParensLine "x = a]" ≠ some "x = a" := by
  exact ⟨by decide, by decide⟩

/-- C6 (amended): for the `()` pair the strategy balances in both
directions (appending missing closers, or removing the rightmost excess
closers, leaving equal counts); for `[]` and `{}` only missing closers
are appended, and a surplus of `]` or `}` yields no candidate. -/
theorem c6_unmatched_delims_amended (line : String) :
    (countChar line '(' ≠ countChar line ')' →
      ∃ r, fixUnmatchedParensLine line = some r ∧
        countChar r '(' = countChar r ')') ∧
    (countChar line '(' = countChar line ')' →
      countChar line ']' < countChar line '[' →
      fixUnmatchedParensLine line =
        some (pushClosers (pyRstrip line) ']'
          (countChar line '[' - countChar line ']'))) ∧
    (countChar line '(' = countChar line ')' →
      ¬ countChar line ']' < countChar line '[' →
      countChar line '}' < countChar line '{' →
      fixUnmatchedParensLine line =
        some (pushClosers (pyRstrip line) '}'
          (countChar line '{' - countChar line '}'))) ∧
    (countChar line '(' = countChar line ')' →
      ¬ countChar line ']' < countChar line '[' →
      ¬ countChar line '}' < countChar line '{' →
      fixUnmatchedParensLine line = none) := by
  refine ⟨?_, ?_, ?_, ?_⟩
  · intro hne
    rcases Nat.lt_or_ge (countChar line ')') (countChar line '(') with hlt | hge
    · refine ⟨pushClosers (pyRstrip line) ')'
        (countChar line '(' - countChar line ')'), ?_, ?_⟩
      · unfold fixUnmatchedParensLine
        rw [if_pos hlt]
      · rw [countChar_pushClosers_ne _ _ _ _ (by decide),
          countChar_pushClosers_self,
          countChar_pyRstrip _ _ (by decide),
          countChar_pyRstrip _ _ (by decide)]
        omega
    · have hlt : countChar line '(' < countChar line ')' := by omega
      refine ⟨removeLastN (pyRstrip line) ')'
        (countChar line ')' - countChar line '('), ?_, ?_⟩
      · unfold fixUnmatchedParensLine
        rw [if_neg (by omega), if_pos hlt]
      · rw [countChar_removeLastN_ne _ _ (by decide),
          countChar_removeLastN_self,
          countChar_pyRstrip _ _ (by decide),
          countChar_pyRstrip _ _ (by decide)]
        omega
  · intro heq hbr
    unfold fixUnmatchedParensLine
    rw [if_neg (by omega), if_neg (by omega), if_pos hbr]
  · intro heq hbr hbc
    unfold fixUnmatchedParensLine
    rw [if_neg (by omega), if_neg (by omega), if_neg hbr, if_pos hbc]
  · intro heq hbr hbc
    unfold fixUnmatchedParensLine
    rw [if_neg (by omega), if_neg (by omega), if_neg hbr, if_neg hbc]

theorem c6_witness :
    fixUnmatchedParensLine "x = [1, 2" =
      some (pushClosers (pyRstrip "x = [1, 2") ']'
        (countChar "x = [1, 2" '[' - countChar "x = [1, 2" ']')) :=
  (c6_unmatched_delims_amended "x = [1, 2").2.1 (by decide) (by decide)

/-- C8 counterexample: the classifier's matching is case-sensitive — the
lower-cased error type `nameerror` is classified differently from
`NameError`, refuting the claimed case-insensitive matching. -/
theorem c8_counterexample :
    ¬ (classifyRuntimeError (pyLower "NameError")
        "NameError: name 'x' is not defined" =
       classifyRuntimeError "NameError"
        "NameError: name 'x' is not defined") := by
  decide

/-- C8 (amended): the classifier is a deterministic pure function of the
extracted error-type token only (the message argument is ignored), its
matching is an exact, case-sensitive table lookup, and any token with no
table entry is classified LOGIC. -/
theorem c8_classifier_amended :
    (∀ t m₁ m₂, classifyRuntimeError t m₁ = classifyRuntimeError t m₂) ∧
    (∀ t m, runtimeErrorTable.lookup t = none →
      classifyRuntimeError t m = BugType.LOGIC) ∧
    (∀ t m bt, runtimeErrorTable.lookup t = some bt →
      classifyRuntimeError t m = bt) := by
  refine ⟨fun t m₁ m₂ => rfl, fun t m h => ?_, fun t m bt h => ?_⟩
  · simp [classifyRuntimeError, h]
  · simp [classifyRuntimeError, h]

theorem c8_witness :
    runtimeErrorTable.lookup "SomeCustomThing" = none ∧
    classifyRuntimeError "SomeCustomThing" "SomeCustomThing: boom" =
      BugType.LOGIC :=
  ⟨by decide,
   c8_classifier_amended.2.1 "SomeCustomThing" "SomeCustomThing: boom"
     (by decide)⟩

/-- C9: a defect whose file is absent, or whose line number is below 1 or
beyond the file's line count, causes `_fix_error` to return no fix and
leave the file system untouched, independently of the strategy list (no
strategy — cross-file included — is ever attempted). -/
theorem c9_out_of_range_no_attempt (parses : List String → Bool) (fs : FS)
    (e : ErrorInfo) (strategies strategies' : List (String × Strategy))
    (h : fs e.file = none ∨
      ∀ lines, fs e.file = some lines →
        e.line_number < 1 ∨ (lines.length : Int) < e.line_number) :
    fixError parses fs e strategies = (fs, none) ∧
    fixError parses fs e strategies = fixError parses fs e strategies' := by
  have hmain : ∀ st : List (String × Strategy),
      fixError parses fs e st = (fs, none) := by
    intro st
    unfold fixError
    cases hfs : fs e.file with
    | none => rfl
    | some lines =>
      rcases h with h | h
      · rw [h] at hfs
        exact Option.noConfusion hfs
      · simp [h lines hfs]
  exact ⟨hmain strategies, (hmain strategies).trans (hmain strategies').symm⟩

theorem c9_witness :
    fixError (fun _ => true)
      (fun p => if p = "a.py" then some ["x = 1"] else none)
      ⟨"a.py", 0, "SYNTAX", ""⟩
      [("missing_colon", fun _ _ _ => some (Cand.sameFile "anything"))] =
    ((fun p => if p = "a.py" then some ["x = 1"] else none : FS), none) :=
  (c9_out_of_range_no_attempt _ _ _ _ []
    (Or.inr (fun _ _ => Or.inl (by decide)))).1

/-- C10: every constructed `ErrorInfo` satisfies, after
`model_post_init`: `bug_type` lies in the six valid categories (an
unrecognized normalized value is replaced by `"SYNTAX"`), a `None` file
becomes `"unknown"`, and a `None` line number becomes `0`. -/
theorem c10_error_info_invariants (r : RawErrorInfo) :
    (modelPostInit r).bug_type ∈ validBugTypes ∧
    (r.file = none → (modelPostInit r).file = "unknown") ∧
    (r.line_number = none → (modelPostInit r).line_number = 0) ∧
    (pyStrip (pyUpper r.bug_type) ∉ validBugTypes →
      (modelPostInit r).bug_type = "SYNTAX") := by
  refine ⟨?_, ?_, ?_, ?_⟩
  · by_cases h : pyStrip (pyUpper r.bug_type) ∈ validBugTypes
    · simp [modelPostInit, h]
    · simp [modelPostInit, h]
      decide
  · intro h
    simp [modelPostInit, h]
  · intro h
    simp [modelPostInit, h]
  · intro h
    simp [modelPostInit, h]

theorem c10_witness :
    (modelPostInit ⟨none, none, "garbage", "m"⟩).bug_type ∈ validBugTypes ∧
    (modelPostInit ⟨none, none, "garbage", "m"⟩).file = "unknown" ∧
    (modelPostInit ⟨none, none, "garbage", "m"⟩).line_number = 0 ∧
    (modelPostInit ⟨none, none, "garbage", "m"⟩).bug_type = "SYNTAX" :=
  ⟨(c10_error_info_invariants _).1,
   (c10_error_info_invariants _).2.1 rfl,
   (c10_error_info_invariants _).2.2.1 rfl,
   (c10_error_info_invariants _).2.2.2 (by decide)⟩

end RIFT
